import Mathlib

/-!
# Verification of the Livy batch-client hook

Shallow embedding of `src/airflow/providers/apache/livy/hooks/livy.py`:
the `BatchState` enumeration, the static validators, the submission-body
builder `build_post_batch_body`, the transport wrapper `run_method`, the
header merge of `get_conn`, the state query `get_batch_state` and the log
paginator `dump_batch_logs`.

Python dynamic values are embedded as the inductive `PyVal` (with `bool`
a subtype of `int` for `isinstance` checks, as in Python); Python
exceptions as the inductive `PyError`; fallible code returns `Except`.
Finite Python floats are carried as exact rationals (no claim below
depends on float rounding or on float-to-string formatting, only on
`isinstance` dispatch and truthiness, which rationals model exactly);
the non-finite floats `nan` and `±inf`, which `int()` rejects, are
separate constructors.
-/

/-- Python exceptions raised by the hook's code paths: `TypeError`,
`ValueError`, `OverflowError` (from `int()` on an infinity) and
`AirflowException`. -/
inductive PyError where
  | typeError (msg : String) : PyError
  | valueError (msg : String) : PyError
  | overflowError (msg : String) : PyError
  | airflowException (msg : String) : PyError
deriving DecidableEq, Repr

/-- A dynamic Python value, as far as the hook inspects one. `float`
holds a finite float as an exact rational; `floatNan` and `floatInf`
are the non-finite floats `nan` and `±inf`. -/
inductive PyVal where
  | none : PyVal
  | str (s : String) : PyVal
  | int (n : Int) : PyVal
  | bool (b : Bool) : PyVal
  | float (x : Rat) : PyVal
  | floatNan : PyVal
  | floatInf (neg : Bool) : PyVal
  | list (l : List PyVal) : PyVal
  | dict (d : List (String × PyVal)) : PyVal

/-- Python truthiness: `None`, `0`, `False`, `0.0`, empty strings and
empty containers are falsy (`nan` and `±inf` are truthy). -/
def PyVal.truthy : PyVal → Bool
  | .none => false
  | .str s => decide (s ≠ "")
  | .int n => decide (n ≠ 0)
  | .bool b => b
  | .float x => decide (x ≠ 0)
  | .floatNan => true
  | .floatInf _ => true
  | .list l => !l.isEmpty
  | .dict d => !d.isEmpty

/-- `isinstance(v, str)`. -/
def PyVal.isStr : PyVal → Bool
  | .str _ => true
  | _ => false

/-- `isinstance(v, int)`: in Python `bool` is a subclass of `int`. -/
def PyVal.isInt : PyVal → Bool
  | .int _ => true
  | .bool _ => true
  | _ => false

/-- `isinstance(v, (str, int, float))`, the stringability test (`nan`
and `±inf` are floats). -/
def PyVal.isStringable : PyVal → Bool
  | .str _ => true
  | .int _ => true
  | .bool _ => true
  | .float _ => true
  | .floatNan => true
  | .floatInf _ => true
  | _ => false

/-- `str(v)` for the values the builder ever stringifies (the validator
rejects everything that is not a `str`/`int`/`float` before `str` runs;
the float branch renders the exact rational, a stand-in for Python's
float `repr` that no claim depends on). -/
def PyVal.pyStr : PyVal → String
  | .none => "None"
  | .str s => s
  | .int n => toString n
  | .bool b => if b then "True" else "False"
  | .float x => toString x
  | .floatNan => "nan"
  | .floatInf neg => if neg then "-inf" else "inf"
  | .list _ => "<list>"
  | .dict _ => "<dict>"

deriving instance DecidableEq for Except

/-- The code points Python treats as whitespace on `str` (what `int(s)`
and `str.strip()` strip): the Unicode whitespace set of
`Py_UNICODE_ISSPACE`. -/
def pySpaceCodes : List Nat :=
  [0x09, 0x0A, 0x0B, 0x0C, 0x0D, 0x1C, 0x1D, 0x1E, 0x1F, 0x20,
   0x85, 0xA0, 0x1680,
   0x2000, 0x2001, 0x2002, 0x2003, 0x2004, 0x2005, 0x2006, 0x2007,
   0x2008, 0x2009, 0x200A,
   0x2028, 0x2029, 0x202F, 0x205F, 0x3000]

/-- Is `c` Python whitespace? -/
def isPySpace (c : Char) : Bool :=
  pySpaceCodes.contains c.toNat

/-- The first code points of the runs of ten Unicode decimal digits
(category `Nd`, Unicode 15.0): what Python's `\d` and `int()` accept as
a digit. Every `Nd` character is `start + v` for one of these starts
and a digit value `v < 10`. -/
def ndRanges : List Nat :=
  [0x0030, 0x0660, 0x06F0, 0x07C0, 0x0966, 0x09E6, 0x0A66, 0x0AE6,
   0x0B66, 0x0BE6, 0x0C66, 0x0CE6, 0x0D66, 0x0DE6, 0x0E50, 0x0ED0,
   0x0F20, 0x1040, 0x1090, 0x17E0, 0x1810, 0x1946, 0x19D0, 0x1A80,
   0x1A90, 0x1B50, 0x1BB0, 0x1C40, 0x1C50, 0xA620, 0xA8D0, 0xA900,
   0xA9D0, 0xA9F0, 0xAA50, 0xABF0, 0xFF10,
   0x104A0, 0x10D30, 0x11066, 0x110F0, 0x11136, 0x111D0, 0x112F0,
   0x11450, 0x114D0, 0x11650, 0x116C0, 0x11730, 0x118E0, 0x11950,
   0x11C50, 0x11D50, 0x11DA0, 0x11F50, 0x16A60, 0x16AC0, 0x16B50,
   0x1D7CE, 0x1D7D8, 0x1D7E2, 0x1D7EC, 0x1D7F6,
   0x1E140, 0x1E2F0, 0x1E4F0, 0x1E950, 0x1FBF0]

/-- Is `c` a Unicode decimal digit (category `Nd`), Python's `\d`? -/
def isPyDigit (c : Char) : Bool :=
  ndRanges.any (fun s => s ≤ c.toNat ∧ c.toNat < s + 10)

/-- The digit value of an `Nd` character: its offset in its run of ten. -/
def pyDigitVal (c : Char) : Nat :=
  match ndRanges.find? (fun s => s ≤ c.toNat ∧ c.toNat < s + 10) with
  | Option.some s => c.toNat - s
  | Option.none => 0

/-- The decimal value of a digit run, most significant digit first,
skipping underscore separators. -/
def digitsVal (cs : List Char) : Nat :=
  cs.foldl (fun acc c => if c = '_' then acc else acc * 10 + pyDigitVal c) 0

/-- The characters of `s` with surrounding Python whitespace stripped,
as `int(s)` strips it before parsing. -/
def pyStrip (s : String) : List Char :=
  ((s.data.dropWhile isPySpace).reverse.dropWhile isPySpace).reverse

/-- The tail of a digit run, scanned one character at a time; the flag
records whether the previous character was an underscore separator.
Underscores may appear only singly and only between digits, as in
Python's integer literals accepted by `int()`. -/
def validTail : Bool → List Char → Bool
  | prev, [] => !prev
  | prev, c :: rest =>
      if c = '_' then !prev && validTail true rest
      else isPyDigit c && validTail false rest

/-- A full digit run: a leading digit, then digits with single
underscore separators between digits. -/
def validDigits : List Char → Bool
  | [] => false
  | c :: rest => isPyDigit c && validTail false rest

/-- The digit-run part of an integer literal. -/
def parseDigits (sign : Int) (ds : List Char) : Option Int :=
  if validDigits ds then
    Option.some (sign * (digitsVal ds : Int))
  else
    Option.none

/-- An optionally signed digit run. -/
def parseSigned (cs : List Char) : Option Int :=
  if cs.head? = Option.some '+' then parseDigits 1 cs.tail
  else if cs.head? = Option.some '-' then parseDigits (-1) cs.tail
  else parseDigits 1 cs

/-- `int(s)` on a Python `str`: surrounding Unicode whitespace is
stripped, then an optional single sign followed by a run of Unicode
decimal digits with optional single underscore group separators
between digits. -/
def pyIntOfString (s : String) : Option Int :=
  parseSigned (pyStrip s)

/-- Python's `int(v)` builtin as the hook can observe it: `TypeError` on
`None` and containers, `ValueError` on unparseable strings and on `nan`,
`OverflowError` on `±inf`, truncation toward zero on finite floats,
identity on ints and bools. -/
def pyInt : PyVal → Except PyError Int
  | .none => .error (.typeError "int() argument must not be None")
  | .str s =>
      match pyIntOfString s with
      | Option.some n => .ok n
      | Option.none => .error (.valueError ("invalid literal for int(): " ++ s))
  | .int n => .ok n
  | .bool b => .ok (if b then 1 else 0)
  | .float x => .ok (x.num.tdiv (x.den : Int))
  | .floatNan => .error (.valueError "cannot convert float NaN to integer")
  | .floatInf _ => .error (.overflowError "cannot convert float infinity to integer")
  | .list _ => .error (.typeError "int() argument must not be a list")
  | .dict _ => .error (.typeError "int() argument must not be a dict")

/-- `LivyHook._validate_session_id`: `int(session_id)` inside a
`try`/`except (TypeError, ValueError)` that re-raises
`TypeError("'session_id' must be an integer")`; any other exception
(an `OverflowError` from `int(inf)`) is not caught and propagates. -/
def _validate_session_id (session_id : PyVal) : Except PyError Unit :=
  match pyInt session_id with
  | .ok _ => .ok ()
  | .error (.typeError _) => .error (.typeError "\x27session_id\x27 must be an integer")
  | .error (.valueError _) => .error (.typeError "\x27session_id\x27 must be an integer")
  | .error e => .error e

/-- Is `c` one of the size-unit letters `[kmgt]`, case-insensitively? -/
def isSizeUnit (c : Char) : Bool :=
  c = 'k' ∨ c = 'm' ∨ c = 'g' ∨ c = 't' ∨ c = 'K' ∨ c = 'M' ∨ c = 'G' ∨ c = 'T'

/-- The body of `^\d+[kmgt]b?$` consumed to the end of `cs`: one or
more Unicode decimal digits, one unit letter, an optional trailing
`b`/`B`. -/
def sizeCore (cs : List Char) : Bool :=
  !(cs.takeWhile isPyDigit).isEmpty &&
    match cs.dropWhile isPyDigit with
    | [u] => isSizeUnit u
    | [u, b] => isSizeUnit u && (b = 'b' ∨ b = 'B')
    | _ => false

/-- `re.match(r"^\d+[kmgt]b?$", s, re.IGNORECASE)` as a Boolean: in
Python, `$` matches at the end of the string or just before a newline
that ends the string, so the pattern body may consume either the whole
string or everything up to one trailing `'\n'`. -/
def sizeMatch (s : String) : Bool :=
  sizeCore s.data ||
    (decide (s.data.getLast? = Option.some '\n') && sizeCore s.data.dropLast)

/-- `LivyHook._validate_size_format`: raises `ValueError` when the value
is truthy but does not match `^\d+[kmgt]b?$` case-insensitively; a falsy
value (`None`, `""`) is not validated. -/
def _validate_size_format (size : Option String) : Except PyError Bool :=
  match size with
  | Option.none => .ok true
  | Option.some s =>
      if s ≠ "" ∧ ¬ sizeMatch s then
        .error (.valueError ("Invalid java size format for string\x27" ++ s ++ "\x27"))
      else
        .ok true

/-- `LivyHook._validate_list_of_stringables` on a list value: raises
`ValueError` unless every element is a `str`, `int` or `float`.
(The `vals is None or not isinstance(vals, (tuple, list))` guard of the
source rejects non-list inputs, which this typed embedding cannot
represent.) -/
def _validate_list_of_stringables (vals : List PyVal) : Except PyError Bool :=
  if vals.any (fun v => !v.isStringable) then
    .error (.valueError "List of strings expected")
  else
    .ok true

/-- `LivyHook._validate_extra_conf`: on a truthy (non-empty) dict, raises
`ValueError` unless every value satisfies
`v and isinstance(v, str) or isinstance(v, int)` — a non-empty string or
an `int` (Python `bool` included). -/
def _validate_extra_conf (conf : List (String × PyVal)) : Except PyError Bool :=
  if !conf.isEmpty then
    if conf.any (fun kv => !((kv.2.truthy && kv.2.isStr) || kv.2.isInt)) then
      .error (.valueError "\x27conf\x27 values must be either strings or ints")
    else
      .ok true
  else
    .ok true

/-- The `BatchState` enumeration: the ten batch session states. -/
inductive BatchState where
  | NOT_STARTED
  | STARTING
  | RUNNING
  | IDLE
  | BUSY
  | SHUTTING_DOWN
  | ERROR
  | DEAD
  | KILLED
  | SUCCESS
deriving DecidableEq, Repr

/-- Enum lookup by value, `BatchState(s)` on a string: `some` for the ten
recognized strings, `none` where Python raises `ValueError`. -/
def BatchState.ofValue : String → Option BatchState
  | "not_started" => Option.some .NOT_STARTED
  | "starting" => Option.some .STARTING
  | "running" => Option.some .RUNNING
  | "idle" => Option.some .IDLE
  | "busy" => Option.some .BUSY
  | "shutting_down" => Option.some .SHUTTING_DOWN
  | "error" => Option.some .ERROR
  | "dead" => Option.some .DEAD
  | "killed" => Option.some .KILLED
  | "success" => Option.some .SUCCESS
  | _ => Option.none

/-- `BatchState(v)` on a dynamic value: only the ten recognized strings
construct a state, anything else raises `ValueError`. -/
def BatchState.construct (v : PyVal) : Except PyError BatchState :=
  match v with
  | .str s =>
      match BatchState.ofValue s with
      | Option.some st => .ok st
      | Option.none => .error (.valueError (s ++ " is not a valid BatchState"))
  | other => .error (.valueError (other.pyStr ++ " is not a valid BatchState"))

/-! ## The submission-body builder

`build_post_batch_body` fills a `dict` by successive `body[key] = value`
assignments, each guarded by the parameter's truthiness (and, where
applicable, by a validator that raises instead of returning `False`).
All wire keys are distinct, so the insertion-ordered dict equals the
concatenation of one (possibly empty, possibly failing) segment per
parameter, in source order; the embedding builds it that way. -/

/-- Segment for a plain optional string parameter (`proxyUser`,
`className`, `queue`, `name`): present exactly when truthy. -/
def segStr (key : String) (v : Option String) : List (String × PyVal) :=
  match v with
  | Option.some s => if s = "" then [] else [(key, .str s)]
  | Option.none => []

/-- Segment for an `int | str` parameter (`driverCores`,
`numExecutors`): present exactly when truthy, passed through unchanged. -/
def segPy (key : String) (v : Option PyVal) : List (String × PyVal) :=
  match v with
  | Option.some x => if x.truthy then [(key, x)] else []
  | Option.none => []

/-- Segment for an `int` parameter (`executorCores`): present exactly
when truthy. -/
def segInt (key : String) (v : Option Int) : List (String × PyVal) :=
  match v with
  | Option.some n => if n = 0 then [] else [(key, .int n)]
  | Option.none => []

/-- Segment for `args`: when truthy, validated as stringables, then each
element stringified. -/
def segArgs (v : Option (List PyVal)) : Except PyError (List (String × PyVal)) :=
  match v with
  | Option.some l =>
      if l.isEmpty then .ok []
      else do
        _ ← _validate_list_of_stringables l
        .ok [("args", .list (l.map (fun x => .str x.pyStr)))]
  | Option.none => .ok []

/-- Segment for a `list[str]` parameter (`jars`, `pyFiles`, `files`,
`archives`): when truthy, validated as stringables, passed through. -/
def segStrList (key : String) (v : Option (List String)) :
    Except PyError (List (String × PyVal)) :=
  match v with
  | Option.some l =>
      if l.isEmpty then .ok []
      else do
        _ ← _validate_list_of_stringables (l.map PyVal.str)
        .ok [(key, .list (l.map PyVal.str))]
  | Option.none => .ok []

/-- Segment for a size-formatted string (`driverMemory`,
`executorMemory`): when truthy, validated against `^\d+[kmgt]b?$`. -/
def segSize (key : String) (v : Option String) :
    Except PyError (List (String × PyVal)) :=
  match v with
  | Option.some s =>
      if s = "" then .ok []
      else do
        _ ← _validate_size_format (Option.some s)
        .ok [(key, .str s)]
  | Option.none => .ok []

/-- Segment for `conf`: when truthy, validated, passed through. -/
def segConf (v : Option (List (String × PyVal))) :
    Except PyError (List (String × PyVal)) :=
  match v with
  | Option.some c =>
      if c.isEmpty then .ok []
      else do
        _ ← _validate_extra_conf c
        .ok [("conf", .dict c)]
  | Option.none => .ok []

/-- `LivyHook.build_post_batch_body`: starts from `{"file": file}` and
appends each truthy optional parameter under its wire key, running the
validators in source order (`args`, `jars`, `py_files`, `files`,
`driver_memory`, `executor_memory`, `archives`, `conf`); the first
validation failure propagates and no partial body is returned. -/
def build_post_batch_body
    (file : String)
    (args : Option (List PyVal))
    (class_name : Option String)
    (jars : Option (List String))
    (py_files : Option (List String))
    (files : Option (List String))
    (archives : Option (List String))
    (name : Option String)
    (driver_memory : Option String)
    (driver_cores : Option PyVal)
    (executor_memory : Option String)
    (executor_cores : Option Int)
    (num_executors : Option PyVal)
    (queue : Option String)
    (proxy_user : Option String)
    (conf : Option (List (String × PyVal))) :
    Except PyError (List (String × PyVal)) := do
  let sArgs ← segArgs args
  let sJars ← segStrList "jars" jars
  let sPyFiles ← segStrList "pyFiles" py_files
  let sFiles ← segStrList "files" files
  let sDriverMem ← segSize "driverMemory" driver_memory
  let sExecutorMem ← segSize "executorMemory" executor_memory
  let sArchives ← segStrList "archives" archives
  let sConf ← segConf conf
  .ok ([("file", .str file)]
    ++ segStr "proxyUser" proxy_user
    ++ segStr "className" class_name
    ++ sArgs
    ++ sJars
    ++ sPyFiles
    ++ sFiles
    ++ sDriverMem
    ++ segPy "driverCores" driver_cores
    ++ sExecutorMem
    ++ segInt "executorCores" executor_cores
    ++ segPy "numExecutors" num_executors
    ++ sArchives
    ++ segStr "queue" queue
    ++ segStr "name" name
    ++ sConf)

/-! ## The hook's shared mutable state and `run_method` -/

/-- A raw HTTP response as the hook inspects one: the status code, the
body text, and the parsed JSON body (a JSON object). -/
structure LivyResponse where
  status : Nat
  text : String
  json : List (String × PyVal)

/-- The shared mutable fields of the hook that `run_method` touches:
the `HttpHook.method` verb and the `extra_options` dict. -/
structure HookState where
  method : String
  extra_options : List (String × PyVal)

/-- The five verbs `run_method` accepts. -/
def allowedMethods : List String := ["GET", "POST", "PUT", "DELETE", "HEAD"]

/-- `LivyHook.run_method`, with the underlying `HttpHook.run` and
`run_with_advanced_retry` injected as functions of the hook state (they
read `self.method` and `self.extra_options`); a raising call is a
function returning `.error`. Returns the call's outcome paired with the
hook state after all mutations: the verb is overridden around the call
and restored in a `finally`, the `extra_options` default is set before
the call and never restored, and `retry_args` truthiness selects the
retry path. -/
def run_method (hook : HookState) (method : String) (retry_args : Bool)
    (run : HookState → Except PyError LivyResponse)
    (run_with_advanced_retry : HookState → Except PyError LivyResponse) :
    Except PyError LivyResponse × HookState :=
  if method ∉ allowedMethods then
    (.error (.valueError ("Invalid http method \x27" ++ method ++ "\x27")), hook)
  else
    let hook :=
      if hook.extra_options.isEmpty then
        { hook with extra_options := [("check_response", PyVal.bool false)] }
      else hook
    let back_method := hook.method
    let hook := { hook with method := method }
    let result :=
      if retry_args then run_with_advanced_retry hook else run hook
    (result, { hook with method := back_method })

/-! ## `get_conn` header merging -/

/-- The hook's default headers. -/
def _def_headers : List (String × String) :=
  [("Content-Type", "application/json"), ("Accept", "application/json")]

/-- Python dict assignment `d[k] = v` on an insertion-ordered dict:
an existing key keeps its position, a new key is appended. -/
def dictSet : List (String × String) → String → String → List (String × String)
  | [], k, v => [(k, v)]
  | p :: rest, k, v => if p.1 = k then (k, v) :: rest else p :: dictSet rest k v

/-- Python `d1.update(d2)`: each entry of `d2` assigned into `d1` in
order. -/
def dictUpdate (d upd : List (String × String)) : List (String × String) :=
  upd.foldl (fun acc p => dictSet acc p.1 p.2) d

/-- First-match key lookup, Python `d[k]` / `d.get(k)` on a dict. -/
def lookupStr : List (String × String) → String → Option String
  | [], _ => Option.none
  | p :: rest, k => if p.1 = k then Option.some p.2 else lookupStr rest k

/-- The headers `LivyHook.get_conn` hands to the underlying session: a
copy of `_def_headers` updated with the caller's headers when those are
truthy. -/
def get_conn (headers : Option (List (String × String))) : List (String × String) :=
  let tmp_headers := _def_headers
  match headers with
  | Option.some h => if h.isEmpty then tmp_headers else dictUpdate tmp_headers h
  | Option.none => tmp_headers

/-! ## `get_batch_state` -/

/-- `response.get(k)` on the parsed JSON object. -/
def jsonGet (d : List (String × PyVal)) (k : String) : Option PyVal :=
  (d.find? (fun p => p.1 = k)).map Prod.snd

/-- `LivyHook.get_batch_state`, with the transport's response injected:
validates the session id, re-raises an HTTP error status (≥ 400) as an
`AirflowException` carrying the id and the body text, raises an
`AirflowException` when the JSON lacks a `state` field, and otherwise
constructs `BatchState(jresp["state"])`. -/
def get_batch_state (session_id : PyVal) (response : LivyResponse) :
    Except PyError BatchState := do
  _ ← _validate_session_id session_id
  if 400 ≤ response.status then
    .error (.airflowException
      ("Unable to fetch batch with id: " ++ session_id.pyStr
        ++ ". Message: " ++ response.text))
  else
    match jsonGet response.json "state" with
    | Option.none =>
        .error (.airflowException
          ("Unable to get state for batch with id: " ++ session_id.pyStr))
    | Option.some v => BatchState.construct v

/-! ## The log paginator

`dump_batch_logs` drives `get_batch_logs` through the paginated log
endpoint; the transport is injected as `pages`, mapping a `from` offset
to the `(total, log)` fields of the page the server returns for
`size = 100` (the loop's fixed page size). The Python `while` loop is
embedded with explicit fuel: `none` means the fuel ran out before the
loop exited, `some (offsets, lines)` records the offsets fetched and the
log lines forwarded to the sink, in order. -/

/-- One spin of `while log_start_line <= log_total_lines`: fetch at
`start`, take the new bound from the page's `total`, advance `start` by
100, forward the page's `log` lines. -/
def dumpLoop (pages : Nat → Nat × List α) : Nat → Nat → Nat → Option (List Nat × List α)
  | 0, _, _ => Option.none
  | fuel + 1, start, total =>
    if start ≤ total then
      match dumpLoop pages fuel (start + 100) (pages start).1 with
      | Option.none => Option.none
      | Option.some (offs, outs) => Option.some (start :: offs, (pages start).2 ++ outs)
    else
      Option.some ([], [])

/-- `LivyHook.dump_batch_logs`: `log_start_line = 0`,
`log_total_lines = 0`, `log_batch_size = 100`, then the fetch loop. -/
def dump_batch_logs (pages : Nat → Nat × List α) (fuel : Nat) :
    Option (List Nat × List α) :=
  dumpLoop pages fuel 0 0

/-- A log server on which every page reports `total = 250` and returns
the (at most 100) line numbers from the requested offset up to 250. -/
def pages250 : Nat → Nat × List Nat :=
  fun k => (250, (List.range (min 100 (250 - k))).map (fun i => k + i))

/-- A log server on which every page reports `total = 0` with no lines. -/
def pages0 : Nat → Nat × List Nat := fun _ => (0, [])

/-!
# Theorems
-/

/-- Sanity: Python's `and`/`or` precedence in `_validate_extra_conf`
lets `0` and `False` through (they are `int`s). -/
example : _validate_extra_conf [("a", PyVal.int 0), ("b", PyVal.bool false)] = .ok true := rfl

/-- Sanity: a numeric string with surrounding whitespace and a sign
passes session-id validation, as `int(" -42 ")` does. -/
example : _validate_session_id (PyVal.str " -42 ") = .ok () := by decide

/-- C7: for every call to `run_method` — whatever verb is requested,
whether the retry path is taken, and whether the underlying request
returns normally or raises — the hook's stored HTTP method field after
the call equals its value from before the call. -/
theorem run_method_restores_method (hook : HookState) (method : String)
    (retry_args : Bool) (run rwar : HookState → Except PyError LivyResponse) :
    ((run_method hook method retry_args run rwar).2).method = hook.method := by
  unfold run_method
  by_cases hm : method ∈ allowedMethods
  · by_cases he : hook.extra_options.isEmpty <;> simp [hm, he]
  · simp [hm]

/-- C9, counterexample: with empty `extra_options` and the unrecognized
verb `"PATCH"`, `run_method` exits (raising `ValueError`) without ever
setting `extra_options`, so the claimed mutation does not happen on this
exit path. -/
theorem run_method_extra_options_counterexample :
    (run_method ⟨"GET", []⟩ "PATCH" false
        (fun _ => .error (.valueError "never called"))
        (fun _ => .error (.valueError "never called"))).2.extra_options
      ≠ [("check_response", PyVal.bool false)] := by
  intro h
  exact List.noConfusion h

/-- C9, amended: if `extra_options` is empty when `run_method` is
invoked with one of the five accepted verbs, it is set to
`{"check_response": False}` before the request and never restored — the
mutation persists whether the underlying request returns normally or
raises, and on the retry path too. -/
theorem run_method_extra_options_amended (hook : HookState) (method : String)
    (retry_args : Bool) (run rwar : HookState → Except PyError LivyResponse)
    (hempty : hook.extra_options = [])
    (hmethod : method ∈ allowedMethods) :
    ((run_method hook method retry_args run rwar).2).extra_options
      = [("check_response", PyVal.bool false)] := by
  unfold run_method
  simp [hmethod, hempty]

/-- C9, witness for the amended theorem: a concrete hook with empty
`extra_options`, verb `"POST"`, and a raising transport. -/
theorem run_method_extra_options_amended_witness :
    ((run_method ⟨"GET", []⟩ "POST" false
        (fun _ => .error (.valueError "boom"))
        (fun _ => .ok ⟨200, "", []⟩)).2).extra_options
      = [("check_response", PyVal.bool false)] :=
  run_method_extra_options_amended ⟨"GET", []⟩ "POST" false _ _ rfl
    (by simp [allowedMethods])

/-- C10, amended: `_validate_session_id` accepts every finite float and
every boolean without raising, because it only attempts `int()` on its
input — its acceptance is not limited to integers and integer-parseable
strings. -/
theorem validate_session_id_accepts_floats_and_bools :
    ∀ (x : Rat) (b : Bool),
      _validate_session_id (PyVal.float x) = .ok () ∧
      _validate_session_id (PyVal.bool b) = .ok () := by
  intro x b
  exact ⟨rfl, rfl⟩

/-- C10, counterexample: not every float passes — `int(nan)` raises
`ValueError`, caught and re-raised as the validation `TypeError`, while
`int(inf)` raises `OverflowError`, which the
`except (TypeError, ValueError)` clause does not catch, so it
propagates unchanged. -/
theorem validate_session_id_float_counterexample :
    _validate_session_id PyVal.floatNan
        = .error (.typeError "\x27session_id\x27 must be an integer") ∧
    _validate_session_id (PyVal.floatInf false)
        = .error (.overflowError "cannot convert float infinity to integer") :=
  ⟨rfl, rfl⟩

/-- A conf value the spec accepts: a non-empty string or an integer
(in Python a `bool` is an `int`). -/
def confValueOk (v : PyVal) : Bool :=
  match v with
  | .str s => decide (s ≠ "")
  | .int _ => true
  | .bool _ => true
  | _ => false

lemma conf_check_eq_confValueOk (v : PyVal) :
    ((v.truthy && v.isStr) || v.isInt) = confValueOk v := by
  rcases v with - | s | n | b | x | - | ng | l | d <;>
    simp [PyVal.truthy, PyVal.isStr, PyVal.isInt, confValueOk]

/-- C6: conf validation passes exactly when every value in the mapping
is a non-empty string or an integer, and otherwise fails with an
`InvalidArgument` error (a Python `ValueError`); in particular
`{"a": "x", "b": 1}` passes while `{"a": None}`, `{"a": 3.5}` and
`{"a": ""}` each fail. -/
theorem validate_extra_conf_spec :
    (∀ conf : List (String × PyVal),
      (_validate_extra_conf conf = .ok true ↔ ∀ p ∈ conf, confValueOk p.2 = true)) ∧
    (∀ conf : List (String × PyVal), (¬ ∀ p ∈ conf, confValueOk p.2 = true) →
      _validate_extra_conf conf
        = .error (.valueError "\x27conf\x27 values must be either strings or ints")) ∧
    _validate_extra_conf [("a", PyVal.str "x"), ("b", PyVal.int 1)] = .ok true ∧
    _validate_extra_conf [("a", PyVal.none)]
      = .error (.valueError "\x27conf\x27 values must be either strings or ints") ∧
    _validate_extra_conf [("a", PyVal.float ((7 : Rat) / 2))]
      = .error (.valueError "\x27conf\x27 values must be either strings or ints") ∧
    _validate_extra_conf [("a", PyVal.str "")]
      = .error (.valueError "\x27conf\x27 values must be either strings or ints") := by
  have hany : ∀ l : List (String × PyVal),
      (l.any fun kv => !((kv.2.truthy && kv.2.isStr) || kv.2.isInt))
        = l.any fun kv => !confValueOk kv.2 := by
    intro l
    induction l with
    | nil => rfl
    | cons x xs ih => simp [List.any_cons, ih, conf_check_eq_confValueOk]
  have hfail : ∀ conf : List (String × PyVal),
      (¬ ∀ p ∈ conf, confValueOk p.2 = true) →
      _validate_extra_conf conf
        = .error (.valueError "\x27conf\x27 values must be either strings or ints") := by
    intro conf h
    push_neg at h
    obtain ⟨p, hp, hpv⟩ := h
    have hpv' : confValueOk p.2 = false := by
      rcases hb : confValueOk p.2 with - | -
      · rfl
      · exact absurd hb hpv
    have hanyc : (conf.any fun kv => !((kv.2.truthy && kv.2.isStr) || kv.2.isInt)) = true := by
      rw [hany, List.any_eq_true]
      exact ⟨p, hp, by simp [hpv']⟩
    have hne : conf.isEmpty = false := by
      rcases conf with - | ⟨q, rest⟩
      · cases hp
      · rfl
    unfold _validate_extra_conf
    rw [hne, hanyc]
    rfl
  have key : ∀ conf : List (String × PyVal),
      (_validate_extra_conf conf = .ok true ↔ ∀ p ∈ conf, confValueOk p.2 = true) := by
    intro conf
    constructor
    · intro hok
      by_contra h
      rw [hfail conf h] at hok
      cases hok
    · intro h
      unfold _validate_extra_conf
      rcases hne : conf.isEmpty with - | -
      · have hanyc : (conf.any fun kv => !((kv.2.truthy && kv.2.isStr) || kv.2.isInt)) = false := by
          rw [hany, List.any_eq_false]
          intro kv hkv
          simp [h kv hkv]
        rw [hanyc]
        rfl
      · rfl
  refine ⟨key, hfail, by decide, by decide, ?_, by decide⟩
  apply hfail
  intro hall
  have := hall ("a", PyVal.float ((7 : Rat) / 2)) (by simp)
  simp [confValueOk] at this

/-- C3: for every session id passing validation and every non-error
response status, `get_batch_state` returns `BatchState.RUNNING` for the
body `{"state": "running"}`; raises a fetch error (`AirflowException`)
when the body lacks a `state` field; and raises an `InvalidArgument`
error (the `ValueError` of `BatchState` construction) for the
unrecognized value `"bogus"`. -/
theorem get_batch_state_spec (session_id : PyVal)
    (hvalid : _validate_session_id session_id = .ok ())
    (st : Nat) (text : String) (hst : st < 400) :
    get_batch_state session_id ⟨st, text, [("state", PyVal.str "running")]⟩
        = .ok BatchState.RUNNING ∧
    (∀ d : List (String × PyVal), jsonGet d "state" = Option.none →
      ∃ msg, get_batch_state session_id ⟨st, text, d⟩
        = .error (.airflowException msg)) ∧
    (∃ msg, get_batch_state session_id ⟨st, text, [("state", PyVal.str "bogus")]⟩
        = .error (.valueError msg)) := by
  have hnotle : ¬ (400 ≤ st) := by omega
  refine ⟨?_, fun d hd => ?_, ?_⟩
  · unfold get_batch_state
    rw [hvalid]
    simp only [Bind.bind, Except.bind, hnotle, if_false]
    rfl
  · refine ⟨"Unable to get state for batch with id: " ++ session_id.pyStr, ?_⟩
    unfold get_batch_state
    rw [hvalid]
    simp only [Bind.bind, Except.bind, hnotle, if_false]
    rw [hd]
  · refine ⟨"bogus is not a valid BatchState", ?_⟩
    unfold get_batch_state
    rw [hvalid]
    simp only [Bind.bind, Except.bind, hnotle, if_false]
    rfl

/-- C3, witness: session id `1`, status `200`: the running body yields
`RUNNING`, a stateless body raises, and `"bogus"` raises `ValueError`. -/
theorem get_batch_state_spec_witness :
    get_batch_state (PyVal.int 1) ⟨200, "", [("state", PyVal.str "running")]⟩
      = .ok BatchState.RUNNING :=
  (get_batch_state_spec (PyVal.int 1) rfl 200 "" (by omega)).1

lemma lookupStr_dictSet (d : List (String × String)) (k v k' : String) :
    lookupStr (dictSet d k v) k' = if k' = k then Option.some v else lookupStr d k' := by
  induction d with
  | nil =>
    by_cases h : k' = k
    · subst h; simp [dictSet, lookupStr]
    · simp [dictSet, lookupStr, h, Ne.symm h]
  | cons p rest ih =>
    by_cases hp : p.1 = k
    · by_cases h : k' = k
      · subst h; simp [dictSet, lookupStr, hp]
      · simp [dictSet, lookupStr, hp, h, Ne.symm h]
    · by_cases h : k' = k
      · subst h; simp [dictSet, lookupStr, hp, ih]
      · simp [dictSet, lookupStr, hp, h, ih]

lemma lookupStr_dictUpdate_not_mem (upd : List (String × String)) :
    ∀ (d : List (String × String)) (k : String), k ∉ upd.map Prod.fst →
      lookupStr (dictUpdate d upd) k = lookupStr d k := by
  induction upd with
  | nil => intro d k _; rfl
  | cons u rest ih =>
    intro d k h
    simp only [List.map_cons, List.mem_cons] at h
    push_neg at h
    have step : dictUpdate d (u :: rest) = dictUpdate (dictSet d u.1 u.2) rest := rfl
    rw [step, ih _ k h.2, lookupStr_dictSet, if_neg h.1]

lemma lookupStr_dictUpdate_mem (upd : List (String × String)) :
    ∀ (d : List (String × String)) (k v : String), (upd.map Prod.fst).Nodup →
      (k, v) ∈ upd → lookupStr (dictUpdate d upd) k = Option.some v := by
  induction upd with
  | nil => intro d k v _ h; cases h
  | cons u rest ih =>
    intro d k v hnd hmem
    simp only [List.map_cons, List.nodup_cons] at hnd
    have step : dictUpdate d (u :: rest) = dictUpdate (dictSet d u.1 u.2) rest := rfl
    rcases List.mem_cons.mp hmem with h | h
    · subst h
      rw [step, lookupStr_dictUpdate_not_mem rest _ k hnd.1,
        lookupStr_dictSet, if_pos rfl]
    · rw [step]
      exact ih _ k v hnd.2 h

/-- C8: the session headers built by `get_conn` are the two JSON
defaults merged beneath the caller's headers — a caller-supplied key
wins on conflict, a key the caller does not supply falls back to the
defaults, and with no (or empty) caller headers the defaults are used
unchanged. -/
theorem get_conn_headers_spec (h : List (String × String))
    (hnd : (h.map Prod.fst).Nodup) :
    get_conn Option.none = _def_headers ∧
    get_conn (Option.some []) = _def_headers ∧
    (∀ k v, (k, v) ∈ h →
      lookupStr (get_conn (Option.some h)) k = Option.some v) ∧
    (∀ k, k ∉ h.map Prod.fst →
      lookupStr (get_conn (Option.some h)) k = lookupStr _def_headers k) := by
  refine ⟨rfl, rfl, fun k v hm => ?_, fun k hm => ?_⟩
  · have hne : h.isEmpty = false := by
      rcases h with - | ⟨q, rest⟩
      · cases hm
      · rfl
    simp only [get_conn, hne, Bool.false_eq_true, if_false]
    exact lookupStr_dictUpdate_mem h _def_headers k v hnd hm
  · rcases he : h.isEmpty with - | -
    · simp only [get_conn, he, Bool.false_eq_true, if_false]
      exact lookupStr_dictUpdate_not_mem h _def_headers k hm
    · simp only [get_conn, he, if_true]

/-- C8, witness: a caller overriding `Accept` wins, while `Content-Type`
keeps its default. -/
theorem get_conn_headers_spec_witness :
    lookupStr (get_conn (Option.some [("Accept", "text/plain")])) "Accept"
      = Option.some "text/plain" :=
  (get_conn_headers_spec [("Accept", "text/plain")] (by simp)).2.2.1
    "Accept" "text/plain" (by simp)

/-- The key contributed by an optional-string segment: present exactly
when the parameter is truthy. -/
def segStrKeys (key : String) (v : Option String) : List String :=
  match v with
  | Option.some s => if s = "" then [] else [key]
  | Option.none => []

/-- The key contributed by an `int | str` segment. -/
def segPyKeys (key : String) (v : Option PyVal) : List String :=
  match v with
  | Option.some x => if x.truthy then [key] else []
  | Option.none => []

/-- The key contributed by an `int` segment. -/
def segIntKeys (key : String) (v : Option Int) : List String :=
  match v with
  | Option.some n => if n = 0 then [] else [key]
  | Option.none => []

/-- The key contributed by a list-valued segment (`args`, the string
lists, `conf`): present exactly when the list is non-empty. -/
def segListKeys (key : String) (v : Option (List β)) : List String :=
  match v with
  | Option.some l => if l.isEmpty then [] else [key]
  | Option.none => []

/-- The keys of the payload `build_post_batch_body` returns, in
insertion order: `file` always, and each optional parameter's wire key
exactly when that parameter is truthy. -/
def expectedKeys (args : Option (List PyVal)) (class_name : Option String)
    (jars py_files files archives : Option (List String))
    (name driver_memory : Option String) (driver_cores : Option PyVal)
    (executor_memory : Option String) (executor_cores : Option Int)
    (num_executors : Option PyVal) (queue proxy_user : Option String)
    (conf : Option (List (String × PyVal))) : List String :=
  ["file"] ++ segStrKeys "proxyUser" proxy_user ++ segStrKeys "className" class_name
    ++ segListKeys "args" args ++ segListKeys "jars" jars
    ++ segListKeys "pyFiles" py_files ++ segListKeys "files" files
    ++ segStrKeys "driverMemory" driver_memory
    ++ segPyKeys "driverCores" driver_cores
    ++ segStrKeys "executorMemory" executor_memory
    ++ segIntKeys "executorCores" executor_cores
    ++ segPyKeys "numExecutors" num_executors
    ++ segListKeys "archives" archives ++ segStrKeys "queue" queue
    ++ segStrKeys "name" name ++ segListKeys "conf" conf

lemma segStr_keys (key : String) (v : Option String) :
    (segStr key v).map Prod.fst = segStrKeys key v := by
  rcases v with - | s
  · rfl
  · by_cases h : s = "" <;> simp [segStr, segStrKeys, h]

lemma segPy_keys (key : String) (v : Option PyVal) :
    (segPy key v).map Prod.fst = segPyKeys key v := by
  rcases v with - | x
  · rfl
  · rcases h : x.truthy with - | - <;> simp [segPy, segPyKeys, h]

lemma segInt_keys (key : String) (v : Option Int) :
    (segInt key v).map Prod.fst = segIntKeys key v := by
  rcases v with - | n
  · rfl
  · by_cases h : n = 0 <;> simp [segInt, segIntKeys, h]

lemma ok_bind {α β : Type} (a : α) (f : α → Except PyError β) :
    (Except.ok a : Except PyError α) >>= f = f a := rfl

lemma error_bind {α β : Type} (e : PyError) (f : α → Except PyError β) :
    (Except.error e : Except PyError α) >>= f = Except.error e := rfl

lemma segArgs_keys (v : Option (List PyVal)) (seg : List (String × PyVal))
    (h : segArgs v = .ok seg) :
    seg.map Prod.fst = segListKeys "args" v := by
  rcases v with - | l
  · injection h with h2; subst h2; rfl
  · rcases he : l.isEmpty with - | -
    · simp only [segArgs, he, Bool.false_eq_true, if_false] at h
      rcases hv : _validate_list_of_stringables l with e | b
      · rw [hv, error_bind] at h; exact Except.noConfusion h
      · rw [hv, ok_bind] at h
        injection h with h2; subst h2
        simp [segListKeys, he]
    · simp only [segArgs, he, if_true] at h
      injection h with h2; subst h2
      simp [segListKeys, he]

lemma segStrList_keys (key : String) (v : Option (List String))
    (seg : List (String × PyVal)) (h : segStrList key v = .ok seg) :
    seg.map Prod.fst = segListKeys key v := by
  rcases v with - | l
  · injection h with h2; subst h2; rfl
  · rcases he : l.isEmpty with - | -
    · simp only [segStrList, he, Bool.false_eq_true, if_false] at h
      rcases hv : _validate_list_of_stringables (l.map PyVal.str) with e | b
      · rw [hv, error_bind] at h; exact Except.noConfusion h
      · rw [hv, ok_bind] at h
        injection h with h2; subst h2
        simp [segListKeys, he]
    · simp only [segStrList, he, if_true] at h
      injection h with h2; subst h2
      simp [segListKeys, he]

lemma segSize_keys (key : String) (v : Option String)
    (seg : List (String × PyVal)) (h : segSize key v = .ok seg) :
    seg.map Prod.fst = segStrKeys key v := by
  rcases v with - | s
  · injection h with h2; subst h2; rfl
  · by_cases he : s = ""
    · simp only [segSize, he, if_pos rfl] at h
      injection h with h2; subst h2
      simp [segStrKeys, he]
    · simp only [segSize, if_neg he] at h
      rcases hv : _validate_size_format (Option.some s) with e | b
      · rw [hv, error_bind] at h; exact Except.noConfusion h
      · rw [hv, ok_bind] at h
        injection h with h2; subst h2
        simp [segStrKeys, he]

lemma mem_segStrKeys (x k : String) (v : Option String)
    (h : x ∈ segStrKeys k v) : x = k := by
  rcases v with - | s
  · cases h
  · simp only [segStrKeys] at h
    by_cases he : s = ""
    · rw [if_pos he] at h; cases h
    · rw [if_neg he] at h; simpa using h

lemma mem_segPyKeys (x k : String) (v : Option PyVal)
    (h : x ∈ segPyKeys k v) : x = k := by
  rcases v with - | p
  · cases h
  · simp only [segPyKeys] at h
    rcases ht : p.truthy with - | -
    · rw [ht] at h; simp at h
    · rw [ht] at h; simpa using h

lemma mem_segIntKeys (x k : String) (v : Option Int)
    (h : x ∈ segIntKeys k v) : x = k := by
  rcases v with - | n
  · cases h
  · simp only [segIntKeys] at h
    by_cases he : n = 0
    · rw [if_pos he] at h; cases h
    · rw [if_neg he] at h; simpa using h

lemma mem_segListKeys {β : Type} (x k : String) (v : Option (List β))
    (h : x ∈ segListKeys k v) : x = k := by
  rcases v with - | l
  · cases h
  · simp only [segListKeys] at h
    rcases he : l.isEmpty with - | -
    · rw [he] at h; simp at h; exact h
    · rw [he] at h; simp at h

lemma segConf_keys (v : Option (List (String × PyVal)))
    (seg : List (String × PyVal)) (h : segConf v = .ok seg) :
    seg.map Prod.fst = segListKeys "conf" v := by
  rcases v with - | c
  · injection h with h2; subst h2; rfl
  · rcases he : c.isEmpty with - | -
    · simp only [segConf, he, Bool.false_eq_true, if_false] at h
      rcases hv : _validate_extra_conf c with e | b
      · rw [hv, error_bind] at h; exact Except.noConfusion h
      · rw [hv, ok_bind] at h
        injection h with h2; subst h2
        simp [segListKeys, he]
    · simp only [segConf, he, if_true] at h
      injection h with h2; subst h2
      simp [segListKeys, he]

/-- C2: a submission request with only `file` set builds the one-key
payload `{"file": file}`; in general the payload's keys are `file`
followed by exactly the wire keys of the truthy optional parameters (so
no key whose supplied value was falsy or empty ever appears); in
particular an empty `jars` list omits the `jars` key entirely. -/
theorem build_post_batch_body_spec :
    (∀ file : String,
      build_post_batch_body file Option.none Option.none Option.none Option.none
          Option.none Option.none Option.none Option.none Option.none Option.none
          Option.none Option.none Option.none Option.none Option.none
        = .ok [("file", PyVal.str file)]) ∧
    (∀ (file : String) (args : Option (List PyVal)) (class_name : Option String)
        (jars py_files files archives : Option (List String))
        (name driver_memory : Option String) (driver_cores : Option PyVal)
        (executor_memory : Option String) (executor_cores : Option Int)
        (num_executors : Option PyVal) (queue proxy_user : Option String)
        (conf : Option (List (String × PyVal))) (body : List (String × PyVal)),
      build_post_batch_body file args class_name jars py_files files archives
          name driver_memory driver_cores executor_memory executor_cores
          num_executors queue proxy_user conf = .ok body →
        body.map Prod.fst = expectedKeys args class_name jars py_files files
          archives name driver_memory driver_cores executor_memory
          executor_cores num_executors queue proxy_user conf) ∧
    (∀ (file : String) (args : Option (List PyVal)) (class_name : Option String)
        (py_files files archives : Option (List String))
        (name driver_memory : Option String) (driver_cores : Option PyVal)
        (executor_memory : Option String) (executor_cores : Option Int)
        (num_executors : Option PyVal) (queue proxy_user : Option String)
        (conf : Option (List (String × PyVal))) (body : List (String × PyVal)),
      build_post_batch_body file args class_name (Option.some []) py_files files
          archives name driver_memory driver_cores executor_memory
          executor_cores num_executors queue proxy_user conf = .ok body →
        "jars" ∉ body.map Prod.fst) := by
  have keychar : ∀ (file : String) (args : Option (List PyVal))
      (class_name : Option String)
      (jars py_files files archives : Option (List String))
      (name driver_memory : Option String) (driver_cores : Option PyVal)
      (executor_memory : Option String) (executor_cores : Option Int)
      (num_executors : Option PyVal) (queue proxy_user : Option String)
      (conf : Option (List (String × PyVal))) (body : List (String × PyVal)),
      build_post_batch_body file args class_name jars py_files files archives
          name driver_memory driver_cores executor_memory executor_cores
          num_executors queue proxy_user conf = .ok body →
        body.map Prod.fst = expectedKeys args class_name jars py_files files
          archives name driver_memory driver_cores executor_memory
          executor_cores num_executors queue proxy_user conf := by
    intro file args class_name jars py_files files archives name driver_memory
      driver_cores executor_memory executor_cores num_executors queue proxy_user
      conf body hbuild
    unfold build_post_batch_body at hbuild
    rcases hargs : segArgs args with e | sArgs
    · rw [hargs, error_bind] at hbuild; exact Except.noConfusion hbuild
    rw [hargs, ok_bind] at hbuild
    rcases hjars : segStrList "jars" jars with e | sJars
    · rw [hjars, error_bind] at hbuild; exact Except.noConfusion hbuild
    rw [hjars, ok_bind] at hbuild
    rcases hpyf : segStrList "pyFiles" py_files with e | sPyFiles
    · rw [hpyf, error_bind] at hbuild; exact Except.noConfusion hbuild
    rw [hpyf, ok_bind] at hbuild
    rcases hfil : segStrList "files" files with e | sFiles
    · rw [hfil, error_bind] at hbuild; exact Except.noConfusion hbuild
    rw [hfil, ok_bind] at hbuild
    rcases hdm : segSize "driverMemory" driver_memory with e | sDriverMem
    · rw [hdm, error_bind] at hbuild; exact Except.noConfusion hbuild
    rw [hdm, ok_bind] at hbuild
    rcases hem : segSize "executorMemory" executor_memory with e | sExecutorMem
    · rw [hem, error_bind] at hbuild; exact Except.noConfusion hbuild
    rw [hem, ok_bind] at hbuild
    rcases harc : segStrList "archives" archives with e | sArchives
    · rw [harc, error_bind] at hbuild; exact Except.noConfusion hbuild
    rw [harc, ok_bind] at hbuild
    rcases hcnf : segConf conf with e | sConf
    · rw [hcnf, error_bind] at hbuild; exact Except.noConfusion hbuild
    rw [hcnf, ok_bind] at hbuild
    injection hbuild with h2
    subst h2
    simp only [List.map_append, List.map_cons, List.map_nil]
    rw [segStr_keys, segStr_keys, segArgs_keys args sArgs hargs,
      segStrList_keys "jars" jars sJars hjars,
      segStrList_keys "pyFiles" py_files sPyFiles hpyf,
      segStrList_keys "files" files sFiles hfil,
      segSize_keys "driverMemory" driver_memory sDriverMem hdm,
      segPy_keys, segSize_keys "executorMemory" executor_memory sExecutorMem hem,
      segInt_keys, segPy_keys,
      segStrList_keys "archives" archives sArchives harc,
      segStr_keys, segStr_keys,
      segConf_keys conf sConf hcnf]
    rfl
  refine ⟨fun file => rfl, keychar, ?_⟩
  intro file args class_name py_files files archives name driver_memory
    driver_cores executor_memory executor_cores num_executors queue proxy_user
    conf body hbuild hmem
  rw [keychar file args class_name (Option.some []) py_files files archives name
    driver_memory driver_cores executor_memory executor_cores num_executors
    queue proxy_user conf body hbuild] at hmem
  simp only [expectedKeys, List.mem_append, or_assoc] at hmem
  rcases hmem with h | h | h | h | h | h | h | h | h | h | h | h | h | h | h | h
  · exact absurd h (by decide)
  · exact absurd (mem_segStrKeys _ _ _ h) (by decide)
  · exact absurd (mem_segStrKeys _ _ _ h) (by decide)
  · exact absurd (mem_segListKeys _ _ _ h) (by decide)
  · simp [segListKeys] at h
  · exact absurd (mem_segListKeys _ _ _ h) (by decide)
  · exact absurd (mem_segListKeys _ _ _ h) (by decide)
  · exact absurd (mem_segStrKeys _ _ _ h) (by decide)
  · exact absurd (mem_segPyKeys _ _ _ h) (by decide)
  · exact absurd (mem_segStrKeys _ _ _ h) (by decide)
  · exact absurd (mem_segIntKeys _ _ _ h) (by decide)
  · exact absurd (mem_segPyKeys _ _ _ h) (by decide)
  · exact absurd (mem_segListKeys _ _ _ h) (by decide)
  · exact absurd (mem_segStrKeys _ _ _ h) (by decide)
  · exact absurd (mem_segStrKeys _ _ _ h) (by decide)
  · exact absurd (mem_segListKeys _ _ _ h) (by decide)

lemma dumpLoop_char {α : Type} (pages : Nat → Nat × List α) :
    ∀ (fuel start total : Nat) (offs : List Nat) (outs : List α),
      dumpLoop pages fuel start total = Option.some (offs, outs) →
      offs = (List.range offs.length).map (fun i => start + 100 * i) ∧
      outs = (offs.map (fun k => (pages k).2)).join ∧
      (total < start → offs = []) ∧
      (start ≤ total →
        1 ≤ offs.length ∧
        (pages (start + 100 * (offs.length - 1))).1 < start + 100 * offs.length ∧
        (∀ i, i + 1 < offs.length →
          start + 100 * (i + 1) ≤ (pages (start + 100 * i)).1)) := by
  intro fuel
  induction fuel with
  | zero => intro start total offs outs h; exact Option.noConfusion h
  | succ fuel ih =>
    intro start total offs outs h
    unfold dumpLoop at h
    by_cases hle : start ≤ total
    · rw [if_pos hle] at h
      rcases hr : dumpLoop pages fuel (start + 100) (pages start).1
        with - | ⟨offs2, outs2⟩
      · rw [hr] at h; exact Option.noConfusion h
      · rw [hr] at h
        injection h with h2
        rw [Prod.mk.injEq] at h2
        obtain ⟨ho, hout⟩ := h2
        subst ho
        subst hout
        obtain ⟨ih1, ih2, ih3, ih4⟩ := ih (start + 100) (pages start).1 offs2 outs2 hr
        refine ⟨?_, ?_, ?_, ?_⟩
        · conv_rhs => rw [List.length_cons, List.range_succ_eq_map,
            List.map_cons, List.map_map]
          have hfn : ((fun i => start + 100 * i) ∘ Nat.succ)
              = fun i => (start + 100) + 100 * i := by
            funext i
            simp only [Function.comp]
            omega
          rw [hfn, ← ih1]
          simp
        · rw [List.map_cons, ih2]
          rfl
        · intro hlt
          exact absurd hle (by omega)
        · intro _
          refine ⟨by simp, ?_, ?_⟩
          · by_cases hnext : start + 100 ≤ (pages start).1
            · obtain ⟨ihlen, ihbound, -⟩ := ih4 hnext
              simp only [List.length_cons]
              have harg : start + 100 * (offs2.length + 1 - 1)
                  = start + 100 + 100 * (offs2.length - 1) := by omega
              rw [harg]
              omega
            · have hoff2 : offs2 = [] := ih3 (by omega)
              subst hoff2
              simp only [List.length_cons, List.length_nil]
              have harg : start + 100 * (0 + 1 - 1) = start := by omega
              rw [harg]
              omega
          · intro i hi
            simp only [List.length_cons] at hi
            rcases i with - | j
            · by_cases hnext : start + 100 ≤ (pages start).1
              · simpa using hnext
              · have hoff2 : offs2 = [] := ih3 (by omega)
                subst hoff2
                simp at hi
            · by_cases hnext : start + 100 ≤ (pages start).1
              · obtain ⟨-, -, ihguard⟩ := ih4 hnext
                have hg := ihguard j (by omega)
                have harg2 : start + 100 * (j + 1) = start + 100 + 100 * j := by
                  omega
                rw [harg2]
                omega
              · have hoff2 : offs2 = [] := ih3 (by omega)
                subst hoff2
                simp at hi
    · rw [if_neg hle] at h
      injection h with h2
      rw [Prod.mk.injEq] at h2
      obtain ⟨ho, hout⟩ := h2
      subst ho
      subst hout
      exact ⟨rfl, rfl, fun _ => rfl, fun hc => absurd hc hle⟩

set_option maxRecDepth 8000 in
/-- C1: whenever the paginator's loop terminates within its fuel, the
fetched offsets are exactly `0, 100, 200, …` (at least one fetch always
happens, since the loop enters with `0 ≤ 0`), every fetched line is
forwarded in order, each offset after the first was allowed by the
`total` of the page fetched just before it, and the final offset is the
first to exceed the `total` of the most recently fetched page; with
every page reporting `total = 250` exactly the offsets `0, 100, 200` are
fetched and all 250 lines forwarded in order, and with `total = 0`
exactly one page is fetched at offset 0. -/
theorem dump_batch_logs_spec :
    (∀ (α : Type) (pages : Nat → Nat × List α) (fuel : Nat)
        (offs : List Nat) (outs : List α),
      dump_batch_logs pages fuel = Option.some (offs, outs) →
        offs = (List.range offs.length).map (fun i => 100 * i) ∧
        outs = (offs.map (fun k => (pages k).2)).join ∧
        1 ≤ offs.length ∧
        (pages (100 * (offs.length - 1))).1 < 100 * offs.length ∧
        (∀ i, i + 1 < offs.length → 100 * (i + 1) ≤ (pages (100 * i)).1)) ∧
    dump_batch_logs pages250 10 = Option.some ([0, 100, 200], List.range 250) ∧
    dump_batch_logs pages0 10 = Option.some ([0], []) := by
  refine ⟨?_, by decide, by decide⟩
  intro α pages fuel offs outs h
  obtain ⟨h1, h2, -, h4⟩ := dumpLoop_char pages fuel 0 0 offs outs h
  obtain ⟨hlen, hbound, hguard⟩ := h4 (Nat.le_refl 0)
  refine ⟨by simpa using h1, h2, hlen, by simpa using hbound, ?_⟩
  intro i hi
  simpa using hguard i hi
